import Mathlib

/-!
# Verification of the quote-translation feature of MaterialYouNewTab

This file gives a shallow embedding, in Lean 4, of the cache-keyed
streaming-translation pipeline implemented in
`scripts/quote-translation.js` of the MaterialYouNewTab repository, and
proves or refutes the specified properties of that pipeline.

Modelling conventions:
* The JavaScript translation cache is a `localStorage`-persisted object
  whose string keys map to `{translation, timestamp}` records.  String-keyed
  JavaScript objects preserve insertion order (every cache key contains a
  character that prevents array-index treatment), so the cache is embedded
  as an association list `List (String × CacheEntry)` in insertion order;
  `Object.entries` is the list itself, assignment `cache[k] = v` replaces
  the entry in place or appends a fresh key at the end, and
  `Object.fromEntries` of a list with distinct keys is again the list.
* `Array.prototype.sort` is stable (ECMAScript 2019); sorting with the
  comparator `(a, b) => b[1].timestamp - a[1].timestamp` therefore produces
  the stable descending reordering by timestamp, which is what
  `List.insertionSort` with the reflexive relation `tsGe` computes.
* `Date.now()` is passed in explicitly as a `Nat` parameter `now`.
* The network is a parameter: a `fetch` outcome value describing whether the
  request rejects, the HTTP `ok` flag, and the decoded text chunks the body
  reader yields.  `JSON.parse` plus the `choices?.[0]?.delta?.content`
  projection on an event payload is an oracle
  `parse : String → Option (Option String)` (`none` = the parse throws,
  `some none` = no/undefined content field, `some (some c)` = content `c`).
* Asynchrony is not modelled: a run of `translateQuoteStreaming` is a pure
  function from its inputs (settings, cache, network outcome, clock) to a
  trace recording the returned value, the updated cache, the number of
  `fetch` calls and cache reads, the `onChunk` invocations in order, and
  the cache keys used for lookup and write.
-/

namespace QuoteTranslation

/-- One cached translation: the value stored under a cache key, mirroring
the object `{translation, timestamp}` built in `quote-translation.js`. -/
structure CacheEntry where
  translation : String
  timestamp : Nat
deriving DecidableEq, Repr

/-- The translation cache, as the insertion-ordered association list of a
string-keyed JavaScript object. -/
abbrev Cache : Type := List (String × CacheEntry)

/-- The settings record of `quote-translation.js` (merge of stored values
with `DEFAULT_TRANSLATION_SETTINGS`).  `temperature` is only forwarded in
the request body and never branches control flow, so its numeric type is
irrelevant here; it is embedded as `Int`. -/
structure TranslationSettings where
  enabled : Bool
  apiUrl : String
  apiKey : String
  model : String
  temperature : Int
  customPrompt : String
  prefetch : Bool
deriving DecidableEq, Repr

/-- JavaScript property assignment `cache[k] = e`: replace the entry of an
existing key in place, otherwise append the new key at the end. -/
def setEntry : Cache → String → CacheEntry → Cache
  | [], k, e => [(k, e)]
  | (k', e') :: rest, k, e =>
    if k' = k then (k, e) :: rest else (k', e') :: setEntry rest k e

/-- JavaScript property lookup `cache[k]` (`none` = `undefined`). -/
def cacheFind : Cache → String → Option CacheEntry
  | [], _ => none
  | (k', e') :: rest, k => if k' = k then some e' else cacheFind rest k

/-- The ordering used by `entries.sort((a, b) => b[1].timestamp - a[1].timestamp)`:
`a` precedes `b` when `a`'s timestamp is at least `b`'s (descending). -/
def tsGe (a b : String × CacheEntry) : Prop := b.2.timestamp ≤ a.2.timestamp

instance : DecidableRel tsGe := fun a b => Nat.decLe b.2.timestamp a.2.timestamp

instance : IsTotal (String × CacheEntry) tsGe := ⟨fun a b => Nat.le_total b.2.timestamp a.2.timestamp⟩

instance : IsTrans (String × CacheEntry) tsGe := ⟨fun _ _ _ h1 h2 => Nat.le_trans h2 h1⟩

/-- The cache put path shared by `saveTranslationToCache` (lines 42-59) and
the inline write in `translateQuoteStreaming` (lines 210-227): assign the
key, then if more than 100 entries resulted, stable-sort all entries by
timestamp descending and retain the first 100. -/
def cachePut (cache : Cache) (cacheKey : String) (e : CacheEntry) : Cache :=
  if 100 < (setEntry cache cacheKey e).length then
    (List.insertionSort tsGe (setEntry cache cacheKey e)).take 100
  else
    setEntry cache cacheKey e

/-- `saveTranslationToCache(quoteText, targetLang, translation)`: the
standalone cache writer, whose key never includes an author. -/
def saveTranslationToCache (cache : Cache) (quoteText targetLang translation : String)
    (now : Nat) : Cache :=
  cachePut cache (quoteText ++ "|" ++ targetLang) { translation := translation, timestamp := now }

theorem setEntry_of_fresh : ∀ (cache : Cache) (k : String) (e : CacheEntry),
    (∀ y ∈ cache, y.1 ≠ k) → setEntry cache k e = cache ++ [(k, e)]
  | [], _, _, _ => rfl
  | (k', e') :: rest, k, e, h => by
    have hk : k' ≠ k := h (k', e') (List.mem_cons_self _ _)
    simp only [setEntry, if_neg hk, List.cons_append, List.cons.injEq, true_and]
    exact setEntry_of_fresh rest k e (fun y hy => h y (List.mem_cons_of_mem _ hy))

theorem cacheFind_eq_none : ∀ (cache : Cache) (k : String),
    cacheFind cache k = none ↔ ∀ y ∈ cache, y.1 ≠ k
  | [], k => by simp [cacheFind]
  | (k', e') :: rest, k => by
    by_cases hk : k' = k
    · subst hk
      simp [cacheFind]
    · simp only [cacheFind, if_neg hk, List.mem_cons]
      rw [cacheFind_eq_none rest k]
      constructor
      · intro h y hy
        rcases hy with rfl | hy
        · exact hk
        · exact h y hy
      · intro h y hy
        exact h y (Or.inr hy)

theorem mem_setEntry_fresh (cache : Cache) (k : String) (e : CacheEntry)
    (h : cacheFind cache k = none) : setEntry cache k e = cache ++ [(k, e)] :=
  setEntry_of_fresh cache k e ((cacheFind_eq_none cache k).mp h)

/-- C1.  Bounded eviction of the cache put path: if the assignment makes the
cache exceed 100 entries, exactly 100 entries are stored afterwards, and
together with the evicted entries they are a permutation of the
post-assignment cache in which every retained entry's timestamp is at least
every evicted entry's timestamp (i.e. the retained 100 are the 100
most-recently-timestamped among the pre-insertion entries together with the
newly inserted entry).  If at most 100 entries result, everything is kept
unchanged.  For a fresh key, the post-assignment cache is literally the
pre-insertion entries followed by the new entry. -/
theorem cachePut_eviction_spec (cache : Cache) (k : String) (e : CacheEntry) :
    (cacheFind cache k = none → setEntry cache k e = cache ++ [(k, e)]) ∧
    (100 < (setEntry cache k e).length →
      (cachePut cache k e).length = 100 ∧
      ∃ evicted : Cache, (cachePut cache k e ++ evicted).Perm (setEntry cache k e) ∧
        ∀ x ∈ cachePut cache k e, ∀ y ∈ evicted, y.2.timestamp ≤ x.2.timestamp) ∧
    ((setEntry cache k e).length ≤ 100 → cachePut cache k e = setEntry cache k e) := by
  refine ⟨mem_setEntry_fresh cache k e, ?_, ?_⟩
  · intro h
    have hperm := List.perm_insertionSort tsGe (setEntry cache k e)
    have hlen : (List.insertionSort tsGe (setEntry cache k e)).length =
        (setEntry cache k e).length := hperm.length_eq
    have hsorted := List.sorted_insertionSort tsGe (setEntry cache k e)
    rw [cachePut, if_pos h]
    refine ⟨?_, (List.insertionSort tsGe (setEntry cache k e)).drop 100, ?_, ?_⟩
    · rw [List.length_take, hlen]
      omega
    · rw [List.take_append_drop]
      exact hperm
    · intro x hx y hy
      exact hsorted.rel_of_mem_take_of_mem_drop hx hy
  · intro h
    rw [cachePut, if_neg (by omega)]

/-- Closed instance of `cachePut_eviction_spec`: a 101-entry cache (the key
being overwritten is already present, so the assignment keeps 101 entries)
triggers eviction down to 100 entries, while a put into an empty cache keeps
the single entry unchanged. -/
theorem cachePut_eviction_spec_witness :
    (100 < (setEntry (List.replicate 101 ("k", ⟨"t", 0⟩) : Cache) "k" ⟨"u", 7⟩).length ∧
      ((cachePut (List.replicate 101 ("k", ⟨"t", 0⟩) : Cache) "k" ⟨"u", 7⟩).length = 100 ∧
       ∃ evicted : Cache,
         (cachePut (List.replicate 101 ("k", ⟨"t", 0⟩) : Cache) "k" ⟨"u", 7⟩ ++ evicted).Perm
           (setEntry (List.replicate 101 ("k", ⟨"t", 0⟩) : Cache) "k" ⟨"u", 7⟩) ∧
         ∀ x ∈ cachePut (List.replicate 101 ("k", ⟨"t", 0⟩) : Cache) "k" ⟨"u", 7⟩,
           ∀ y ∈ evicted, y.2.timestamp ≤ x.2.timestamp)) ∧
    ((setEntry ([] : Cache) "k" ⟨"u", 7⟩).length ≤ 100 ∧
      cachePut ([] : Cache) "k" ⟨"u", 7⟩ = setEntry ([] : Cache) "k" ⟨"u", 7⟩) :=
  ⟨⟨by decide, (cachePut_eviction_spec (List.replicate 101 ("k", ⟨"t", 0⟩)) "k" ⟨"u", 7⟩).2.1
      (by decide)⟩,
   ⟨by decide, (cachePut_eviction_spec [] "k" ⟨"u", 7⟩).2.2 (by decide)⟩⟩

/-- Concatenation of a list of strings, in order (the accumulated value of
repeated `+=` on an initially empty string). -/
def concatAll : List String → String
  | [] => ""
  | s :: rest => s ++ concatAll rest

theorem strAppend_assoc : ∀ a b c : String, a ++ b ++ c = a ++ (b ++ c)
  | ⟨a⟩, ⟨b⟩, ⟨c⟩ => congrArg String.mk (List.append_assoc a b c)

theorem strAppend_eq_empty {s t : String} (h : s ++ t = "") : s = "" ∧ t = "" := by
  have hd : s.data ++ t.data = [] := by
    have := congrArg String.data h
    rwa [String.data_append] at this
  rcases List.append_eq_nil.mp hd with ⟨hs, ht⟩
  cases s; cases t
  simp_all

theorem empty_strAppend : ∀ s : String, "" ++ s = s
  | ⟨_⟩ => rfl

theorem concatAll_append : ∀ a b : List String, concatAll (a ++ b) = concatAll a ++ concatAll b
  | [], b => (empty_strAppend (concatAll b)).symm
  | s :: rest, b => by
    show s ++ concatAll (rest ++ b) = s ++ concatAll rest ++ concatAll b
    rw [concatAll_append rest b, strAppend_assoc]

/-- The pieces produced by the cache-replay loop of `translateQuoteStreaming`
(lines 122-134): repeated `slice(index, index + 3)` with `index` advancing
by the chunk size 3 while `index < cachedTranslation.length`. -/
def chunkPieces : List Char → List (List Char)
  | [] => []
  | c :: cs => ((c :: cs).take 3) :: chunkPieces ((c :: cs).drop 3)
termination_by cs => cs.length
decreasing_by simp; omega

theorem chunkPieces_flatten : ∀ cs : List Char, (chunkPieces cs).flatten = cs := by
  intro cs
  induction cs using chunkPieces.induct with
  | case1 => simp [chunkPieces]
  | case2 c cs ih =>
    rw [chunkPieces]
    simp only [List.flatten_cons]
    rw [ih, List.take_append_drop]

theorem chunkPieces_short : ∀ cs : List Char, ∀ p ∈ chunkPieces cs, p.length ≤ 3 ∧ p ≠ [] := by
  intro cs
  induction cs using chunkPieces.induct with
  | case1 => simp [chunkPieces]
  | case2 c cs ih =>
    rw [chunkPieces]
    intro p hp
    rcases List.mem_cons.mp hp with rfl | hp
    · constructor
      · exact List.length_take_le 3 (c :: cs)
      · simp
    · exact ih p hp

/-- The simulated streaming of a cached translation: the `onChunk` call
sequence produced by `streamCached` in `translateQuoteStreaming` — each
3-character slice with `isComplete = false`, then one `('', true)` call. -/
def streamCached (cachedTranslation : String) : List (String × Bool) :=
  (chunkPieces cachedTranslation.data).map (fun p => (String.mk p, false)) ++ [("", true)]

theorem concatAll_map_mk : ∀ l : List (List Char),
    concatAll (l.map String.mk) = String.mk l.flatten
  | [] => rfl
  | p :: rest => by
    simp only [List.map_cons, concatAll, List.flatten_cons, concatAll_map_mk rest]
    exact rfl

/-- JavaScript `chunk.split('\n')`: split a character list on newline
characters, keeping empty segments. -/
def splitOnNewline : List Char → List (List Char)
  | [] => [[]]
  | c :: cs =>
    if c = '\n' then [] :: splitOnNewline cs
    else
      match splitOnNewline cs with
      | [] => [[c]]
      | l :: ls => (c :: l) :: ls

/-- JavaScript `String.prototype.trim` on a character list (leading and
trailing whitespace removed). -/
def jsTrim (cs : List Char) : List Char :=
  ((cs.dropWhile Char.isWhitespace).reverse.dropWhile Char.isWhitespace).reverse

/-- The lines of one decoded reader chunk:
`chunk.split('\n').filter(line => line.trim() !== '')`. -/
def chunkLines (chunk : String) : List (List Char) :=
  (splitOnNewline chunk.data).filter (fun l => !(jsTrim l).isEmpty)

/-- The event-line loop body of `translateQuoteStreaming` (lines 188-207)
applied to the nonempty lines of one reader chunk: lines starting with the
`data: ` marker are inspected; the `[DONE]` sentinel fires the final
`onChunk('', true)` call and `break`s out of the per-chunk line loop;
otherwise the payload is parsed and a truthy `choices?.[0]?.delta?.content`
is appended to the accumulator and forwarded to `onChunk`; parse failures
and other lines are skipped.  Returns the text accumulated from this chunk
and the `onChunk` calls it caused, in order. -/
def processChunkLines (hasCallback : Bool) (parse : String → Option (Option String)) :
    List (List Char) → String × List (String × Bool)
  | [] => ("", [])
  | line :: rest =>
    if line.take 6 = "data: ".data then
      if line.drop 6 = "[DONE]".data then
        ("", if hasCallback then [("", true)] else [])
      else
        match parse (String.mk (line.drop 6)) with
        | some (some content) =>
          if content = "" then processChunkLines hasCallback parse rest
          else
            (content ++ (processChunkLines hasCallback parse rest).1,
             (if hasCallback then [(content, false)] else []) ++
               (processChunkLines hasCallback parse rest).2)
        | _ => processChunkLines hasCallback parse rest
    else processChunkLines hasCallback parse rest

/-- The reader loop of `translateQuoteStreaming` (lines 181-208) over the
successive decoded chunks: accumulates `fullTranslation` and the `onChunk`
calls across chunks (the `break` at `[DONE]` only exits the inner per-chunk
line loop, so later chunks are still processed). -/
def processStream (hasCallback : Bool) (parse : String → Option (Option String)) :
    List String → String × List (String × Bool)
  | [] => ("", [])
  | chunk :: rest =>
    ((processChunkLines hasCallback parse (chunkLines chunk)).1 ++
       (processStream hasCallback parse rest).1,
     (processChunkLines hasCallback parse (chunkLines chunk)).2 ++
       (processStream hasCallback parse rest).2)

/-- The behaviour of the network on the one `fetch` the client may issue:
the promise rejects (`throwBefore`), or a response arrives with the given
`ok` flag and decoded body chunks; `throwDuring` means the body reader
throws after yielding the chunks (both throws land in the same `catch`). -/
inductive FetchBehavior where
  | throwBefore
  | respond (ok : Bool) (chunks : List String) (throwDuring : Bool)
deriving DecidableEq

/-- Observable outcome of one `translateQuoteStreaming` run: returned value
(`none` = JavaScript `null`), cache afterwards, number of `fetch` calls,
number of `getTranslationCache()` reads, `onChunk` invocations in order,
and the cache keys used for the lookup and for the write (if any). -/
structure TranslateTrace where
  result : Option String
  newCache : Cache
  requests : Nat
  cacheReads : Nat
  chunkCalls : List (String × Bool)
  lookupKey : Option String
  writeKey : Option String
deriving DecidableEq

/-- Key construction of `translateQuoteStreaming` (line 113):
``authorName ? `${quoteText}|${authorName}|${targetLang}` :
`${quoteText}|${targetLang}` `` — note the JavaScript truthiness test, under
which an empty author string selects the author-less key. -/
def cacheKeyFor (quoteText targetLang : String) (authorName : Option String) : String :=
  match authorName with
  | some a =>
    if a ≠ "" then quoteText ++ "|" ++ a ++ "|" ++ targetLang
    else quoteText ++ "|" ++ targetLang
  | none => quoteText ++ "|" ++ targetLang

/-- `translateQuoteStreaming(quoteText, targetLang, onChunk, authorName)`
(lines 105-234), as a pure function of the settings, the stored cache, the
clock, the network behaviour and the payload-parse oracle.  `hasCallback`
records whether an `onChunk` callback was supplied. -/
def translateQuoteStreaming (settings : TranslationSettings) (cache : Cache)
    (quoteText targetLang : String) (hasCallback : Bool) (authorName : Option String)
    (now : Nat) (net : FetchBehavior) (parse : String → Option (Option String)) :
    TranslateTrace :=
  if settings.enabled = false ∨ settings.apiKey = "" ∨ targetLang = "en" then
    { result := none, newCache := cache, requests := 0, cacheReads := 0,
      chunkCalls := [], lookupKey := none, writeKey := none }
  else
    match cacheFind cache (cacheKeyFor quoteText targetLang authorName) with
    | some cachedData =>
      { result := some cachedData.translation, newCache := cache, requests := 0,
        cacheReads := 1,
        chunkCalls := if hasCallback then streamCached cachedData.translation else [],
        lookupKey := some (cacheKeyFor quoteText targetLang authorName), writeKey := none }
    | none =>
      match net with
      | .throwBefore =>
        { result := none, newCache := cache, requests := 1, cacheReads := 1,
          chunkCalls := [], lookupKey := some (cacheKeyFor quoteText targetLang authorName),
          writeKey := none }
      | .respond ok chunks throwDuring =>
        if ok = false then
          { result := none, newCache := cache, requests := 1, cacheReads := 1,
            chunkCalls := [], lookupKey := some (cacheKeyFor quoteText targetLang authorName),
            writeKey := none }
        else if throwDuring then
          { result := none, newCache := cache, requests := 1, cacheReads := 1,
            chunkCalls := (processStream hasCallback parse chunks).2,
            lookupKey := some (cacheKeyFor quoteText targetLang authorName),
            writeKey := none }
        else if (processStream hasCallback parse chunks).1 = "" then
          { result := some "", newCache := cache, requests := 1, cacheReads := 1,
            chunkCalls := (processStream hasCallback parse chunks).2,
            lookupKey := some (cacheKeyFor quoteText targetLang authorName),
            writeKey := none }
        else
          { result := some (processStream hasCallback parse chunks).1,
            newCache := cachePut cache (cacheKeyFor quoteText targetLang authorName)
              { translation := (processStream hasCallback parse chunks).1, timestamp := now },
            requests := 1, cacheReads := 2,
            chunkCalls := (processStream hasCallback parse chunks).2,
            lookupKey := some (cacheKeyFor quoteText targetLang authorName),
            writeKey := some (cacheKeyFor quoteText targetLang authorName) }

section RunLemmas

variable (settings : TranslationSettings) (cache : Cache) (quoteText targetLang : String)
variable (hasCallback : Bool) (authorName : Option String) (now : Nat)
variable (parse : String → Option (Option String))

theorem translate_run_hit (net : FetchBehavior) (entry : CacheEntry)
    (hpass : ¬(settings.enabled = false ∨ settings.apiKey = "" ∨ targetLang = "en"))
    (hhit : cacheFind cache (cacheKeyFor quoteText targetLang authorName) = some entry) :
    translateQuoteStreaming settings cache quoteText targetLang hasCallback authorName
        now net parse =
      { result := some entry.translation, newCache := cache, requests := 0, cacheReads := 1,
        chunkCalls := if hasCallback then streamCached entry.translation else [],
        lookupKey := some (cacheKeyFor quoteText targetLang authorName),
        writeKey := none } := by
  rw [translateQuoteStreaming.eq_def, if_neg hpass, hhit]

theorem translate_run_throwBefore
    (hpass : ¬(settings.enabled = false ∨ settings.apiKey = "" ∨ targetLang = "en"))
    (hmiss : cacheFind cache (cacheKeyFor quoteText targetLang authorName) = none) :
    translateQuoteStreaming settings cache quoteText targetLang hasCallback authorName
        now .throwBefore parse =
      { result := none, newCache := cache, requests := 1, cacheReads := 1,
        chunkCalls := [], lookupKey := some (cacheKeyFor quoteText targetLang authorName),
        writeKey := none } := by
  rw [translateQuoteStreaming.eq_def, if_neg hpass, hmiss]

theorem translate_run_notOk (chunks : List String) (throwDuring : Bool)
    (hpass : ¬(settings.enabled = false ∨ settings.apiKey = "" ∨ targetLang = "en"))
    (hmiss : cacheFind cache (cacheKeyFor quoteText targetLang authorName) = none) :
    translateQuoteStreaming settings cache quoteText targetLang hasCallback authorName
        now (.respond false chunks throwDuring) parse =
      { result := none, newCache := cache, requests := 1, cacheReads := 1,
        chunkCalls := [], lookupKey := some (cacheKeyFor quoteText targetLang authorName),
        writeKey := none } := by
  rw [translateQuoteStreaming.eq_def, if_neg hpass, hmiss]
  exact rfl

theorem translate_run_throwDuring (chunks : List String)
    (hpass : ¬(settings.enabled = false ∨ settings.apiKey = "" ∨ targetLang = "en"))
    (hmiss : cacheFind cache (cacheKeyFor quoteText targetLang authorName) = none) :
    translateQuoteStreaming settings cache quoteText targetLang hasCallback authorName
        now (.respond true chunks true) parse =
      { result := none, newCache := cache, requests := 1, cacheReads := 1,
        chunkCalls := (processStream hasCallback parse chunks).2,
        lookupKey := some (cacheKeyFor quoteText targetLang authorName),
        writeKey := none } := by
  rw [translateQuoteStreaming.eq_def, if_neg hpass, hmiss]
  exact rfl

theorem translate_run_emptyAcc (chunks : List String)
    (hpass : ¬(settings.enabled = false ∨ settings.apiKey = "" ∨ targetLang = "en"))
    (hmiss : cacheFind cache (cacheKeyFor quoteText targetLang authorName) = none)
    (hempty : (processStream hasCallback parse chunks).1 = "") :
    translateQuoteStreaming settings cache quoteText targetLang hasCallback authorName
        now (.respond true chunks false) parse =
      { result := some "", newCache := cache, requests := 1, cacheReads := 1,
        chunkCalls := (processStream hasCallback parse chunks).2,
        lookupKey := some (cacheKeyFor quoteText targetLang authorName),
        writeKey := none } := by
  rw [translateQuoteStreaming.eq_def, if_neg hpass, hmiss]
  show (if (processStream hasCallback parse chunks).1 = "" then _ else _) = _
  rw [if_pos hempty]

theorem translate_run_success (chunks : List String)
    (hpass : ¬(settings.enabled = false ∨ settings.apiKey = "" ∨ targetLang = "en"))
    (hmiss : cacheFind cache (cacheKeyFor quoteText targetLang authorName) = none)
    (hne : (processStream hasCallback parse chunks).1 ≠ "") :
    translateQuoteStreaming settings cache quoteText targetLang hasCallback authorName
        now (.respond true chunks false) parse =
      { result := some (processStream hasCallback parse chunks).1,
        newCache := cachePut cache (cacheKeyFor quoteText targetLang authorName)
          { translation := (processStream hasCallback parse chunks).1, timestamp := now },
        requests := 1, cacheReads := 2,
        chunkCalls := (processStream hasCallback parse chunks).2,
        lookupKey := some (cacheKeyFor quoteText targetLang authorName),
        writeKey := some (cacheKeyFor quoteText targetLang authorName) } := by
  rw [translateQuoteStreaming.eq_def, if_neg hpass, hmiss]
  show (if (processStream hasCallback parse chunks).1 = "" then _ else _) = _
  rw [if_neg hne]

end RunLemmas

/-- C2.  Short-circuit of `translateQuoteStreaming` (lines 105-110): when
translation is disabled, or the API key is empty, or the target language is
`"en"`, the function returns `null` immediately — no `fetch`, no cache
read, no `onChunk` call, cache untouched.  A disabled settings record in
particular gives this for every combination of the other inputs. -/
theorem translate_short_circuit (settings : TranslationSettings) (cache : Cache)
    (quoteText targetLang : String) (hasCallback : Bool) (authorName : Option String)
    (now : Nat) (net : FetchBehavior) (parse : String → Option (Option String))
    (h : settings.enabled = false ∨ settings.apiKey = "" ∨ targetLang = "en") :
    translateQuoteStreaming settings cache quoteText targetLang hasCallback authorName
        now net parse =
      { result := none, newCache := cache, requests := 0, cacheReads := 0,
        chunkCalls := [], lookupKey := none, writeKey := none } := by
  rw [translateQuoteStreaming.eq_def, if_pos h]

/-- A settings record with translation disabled but every other field
configured, for closed instances. -/
def disabledSettings : TranslationSettings :=
  ⟨false, "https://api.example/v1/chat/completions", "key", "gpt-3.5-turbo", 0, "", true⟩

/-- A fully enabled settings record, for closed instances. -/
def enabledSettings : TranslationSettings :=
  ⟨true, "https://api.example/v1/chat/completions", "key", "gpt-3.5-turbo", 0, "", false⟩

/-- Closed instance of `translate_short_circuit`: a disabled settings record
with every other precondition satisfied still yields the silent `null`. -/
theorem translate_short_circuit_witness :
    (disabledSettings.enabled = false ∨ disabledSettings.apiKey = "" ∨ "fr" = "en") ∧
    translateQuoteStreaming disabledSettings [("Hello|fr", ⟨"Bonjour", 3⟩)] "Hello" "fr"
        true none 9 (.respond true ["data: x"] false) (fun _ => some (some "Salut")) =
      { result := none, newCache := [("Hello|fr", ⟨"Bonjour", 3⟩)], requests := 0,
        cacheReads := 0, chunkCalls := [], lookupKey := none, writeKey := none } :=
  ⟨Or.inl rfl,
   translate_short_circuit _ _ "Hello" "fr" true none 9 _ _ (Or.inl rfl)⟩

/-- C3.  Cache-hit path of `translateQuoteStreaming` (lines 116-137): with a
cached entry for the derived key and an `onChunk` callback, no `fetch` is
issued, the cache is unchanged, the function resolves to exactly the cached
string (it returns without waiting for the timer-driven replay), and the
`onChunk` calls are non-final fragments of at most 3 characters whose
in-order concatenation is the cached string, followed by a single final
call with an empty fragment. -/
theorem translate_cache_hit_stream (settings : TranslationSettings) (cache : Cache)
    (quoteText targetLang : String) (authorName : Option String) (now : Nat)
    (net : FetchBehavior) (parse : String → Option (Option String)) (entry : CacheEntry)
    (hpass : ¬(settings.enabled = false ∨ settings.apiKey = "" ∨ targetLang = "en"))
    (hhit : cacheFind cache (cacheKeyFor quoteText targetLang authorName) = some entry) :
    (translateQuoteStreaming settings cache quoteText targetLang true authorName
        now net parse).requests = 0 ∧
    (translateQuoteStreaming settings cache quoteText targetLang true authorName
        now net parse).result = some entry.translation ∧
    (translateQuoteStreaming settings cache quoteText targetLang true authorName
        now net parse).newCache = cache ∧
    ∃ frags : List String,
      (translateQuoteStreaming settings cache quoteText targetLang true authorName
          now net parse).chunkCalls = frags.map (fun f => (f, false)) ++ [("", true)] ∧
      (∀ f ∈ frags, f.length ≤ 3 ∧ f ≠ "") ∧
      concatAll frags = entry.translation := by
  have htr : translateQuoteStreaming settings cache quoteText targetLang true authorName
      now net parse =
      { result := some entry.translation, newCache := cache, requests := 0, cacheReads := 1,
        chunkCalls := streamCached entry.translation,
        lookupKey := some (cacheKeyFor quoteText targetLang authorName),
        writeKey := none } := by
    rw [translateQuoteStreaming.eq_def, if_neg hpass, hhit]
    exact rfl
  rw [htr]
  refine ⟨rfl, rfl, rfl, (chunkPieces entry.translation.data).map String.mk, ?_, ?_, ?_⟩
  · rw [streamCached, List.map_map]
    rfl
  · intro f hf
    rcases List.mem_map.mp hf with ⟨p, hp, rfl⟩
    rcases chunkPieces_short entry.translation.data p hp with ⟨hlen, hne⟩
    refine ⟨hlen, ?_⟩
    intro hcontra
    exact hne (congrArg String.data hcontra)
  · rw [concatAll_map_mk, chunkPieces_flatten]

/-- Closed instance of `translate_cache_hit_stream` at the cached entry
`"Hello|fr" ↦ "Bonjour"` of the specification. -/
theorem translate_cache_hit_stream_witness :
    ¬(enabledSettings.enabled = false ∨ enabledSettings.apiKey = "" ∨ "fr" = "en") ∧
    cacheFind [("Hello|fr", ⟨"Bonjour", 3⟩)] (cacheKeyFor "Hello" "fr" none) =
      some ⟨"Bonjour", 3⟩ ∧
    ((translateQuoteStreaming enabledSettings [("Hello|fr", ⟨"Bonjour", 3⟩)] "Hello" "fr"
        true none 9 .throwBefore (fun _ => none)).requests = 0 ∧
      (translateQuoteStreaming enabledSettings [("Hello|fr", ⟨"Bonjour", 3⟩)] "Hello" "fr"
        true none 9 .throwBefore (fun _ => none)).result =
          some (⟨"Bonjour", 3⟩ : CacheEntry).translation ∧
      (translateQuoteStreaming enabledSettings [("Hello|fr", ⟨"Bonjour", 3⟩)] "Hello" "fr"
        true none 9 .throwBefore (fun _ => none)).newCache =
          [("Hello|fr", ⟨"Bonjour", 3⟩)] ∧
      ∃ frags : List String,
        (translateQuoteStreaming enabledSettings [("Hello|fr", ⟨"Bonjour", 3⟩)] "Hello" "fr"
          true none 9 .throwBefore (fun _ => none)).chunkCalls =
            frags.map (fun f => (f, false)) ++ [("", true)] ∧
        (∀ f ∈ frags, f.length ≤ 3 ∧ f ≠ "") ∧
        concatAll frags = (⟨"Bonjour", 3⟩ : CacheEntry).translation) :=
  ⟨by decide, by decide,
   translate_cache_hit_stream _ _ "Hello" "fr" none 9 .throwBefore (fun _ => none)
     ⟨"Bonjour", 3⟩ (by decide) (by decide)⟩

/-- C6.  Key consistency inside `translateQuoteStreaming`: whenever the run
writes the cache, the write key equals the key used for the cache lookup;
every lookup uses the derived key, which is `text ++ "|" ++ lang` with no
author and `text ++ "|" ++ author ++ "|" ++ lang` with a (nonempty, hence
JavaScript-truthy) author. -/
theorem translate_key_consistency (settings : TranslationSettings) (cache : Cache)
    (quoteText targetLang : String) (hasCallback : Bool) (authorName : Option String)
    (now : Nat) (net : FetchBehavior) (parse : String → Option (Option String)) :
    (∀ k, (translateQuoteStreaming settings cache quoteText targetLang hasCallback
        authorName now net parse).writeKey = some k →
      (translateQuoteStreaming settings cache quoteText targetLang hasCallback
        authorName now net parse).lookupKey = some k) ∧
    (∀ k, (translateQuoteStreaming settings cache quoteText targetLang hasCallback
        authorName now net parse).lookupKey = some k →
      k = cacheKeyFor quoteText targetLang authorName) ∧
    cacheKeyFor quoteText targetLang none = quoteText ++ "|" ++ targetLang ∧
    (∀ a : String, a ≠ "" → cacheKeyFor quoteText targetLang (some a) =
      quoteText ++ "|" ++ a ++ "|" ++ targetLang) := by
  have key : (translateQuoteStreaming settings cache quoteText targetLang hasCallback
      authorName now net parse).writeKey = none ∨
      ((translateQuoteStreaming settings cache quoteText targetLang hasCallback
        authorName now net parse).writeKey =
          some (cacheKeyFor quoteText targetLang authorName) ∧
       (translateQuoteStreaming settings cache quoteText targetLang hasCallback
        authorName now net parse).lookupKey =
          some (cacheKeyFor quoteText targetLang authorName)) := by
    rw [translateQuoteStreaming.eq_def]
    split
    · exact Or.inl rfl
    · split
      · exact Or.inl rfl
      · split
        · exact Or.inl rfl
        · split
          · exact Or.inl rfl
          · split
            · exact Or.inl rfl
            · split
              · exact Or.inl rfl
              · exact Or.inr ⟨rfl, rfl⟩
  have lk : (translateQuoteStreaming settings cache quoteText targetLang hasCallback
      authorName now net parse).lookupKey = none ∨
      (translateQuoteStreaming settings cache quoteText targetLang hasCallback
        authorName now net parse).lookupKey =
          some (cacheKeyFor quoteText targetLang authorName) := by
    rw [translateQuoteStreaming.eq_def]
    split
    · exact Or.inl rfl
    · split
      · exact Or.inr rfl
      · split
        · exact Or.inr rfl
        · split
          · exact Or.inr rfl
          · split
            · exact Or.inr rfl
            · split
              · exact Or.inr rfl
              · exact Or.inr rfl
  refine ⟨?_, ?_, rfl, ?_⟩
  · intro k hk
    rcases key with h | ⟨hw, hl⟩
    · rw [h] at hk
      exact absurd hk (by simp)
    · rw [hw] at hk
      rw [hl, Option.some.inj hk]
  · intro k hk
    rcases lk with h | h
    · rw [h] at hk
      exact absurd hk (by simp)
    · rw [h] at hk
      exact (Option.some.inj hk).symm
  · intro a ha
    rw [cacheKeyFor, if_pos ha]

/-- Closed instance of `translate_key_consistency`: a successful translation
run with author `"Voltaire"` looks up and writes the same key
`"Hi|Voltaire|fr"`, which has the author-aware shape. -/
theorem translate_key_consistency_witness :
    (translateQuoteStreaming enabledSettings [] "Hi" "fr" true (some "Voltaire") 3
        (.respond true ["data: p"] false)
        (fun s => if s = "p" then some (some "Salut") else none)).lookupKey =
      some "Hi|Voltaire|fr" ∧
    cacheKeyFor "Hi" "fr" (some "Voltaire") = "Hi" ++ "|" ++ "Voltaire" ++ "|" ++ "fr" :=
  ⟨(translate_key_consistency enabledSettings [] "Hi" "fr" true (some "Voltaire") 3
      (.respond true ["data: p"] false)
      (fun s => if s = "p" then some (some "Salut") else none)).1 "Hi|Voltaire|fr"
      (by decide),
   (translate_key_consistency enabledSettings [] "Hi" "fr" true (some "Voltaire") 3
      (.respond true ["data: p"] false)
      (fun s => if s = "p" then some (some "Salut") else none)).2.2.2 "Voltaire"
      (by decide)⟩

/-- C7.  Network-path failure of `translateQuoteStreaming`: if the request
reaches the network and the response is not OK, or the fetch / body reader
throws, the run returns `null`, leaves the cache unchanged (no write key),
and makes exactly one request — no retry. -/
theorem translate_network_failure (settings : TranslationSettings) (cache : Cache)
    (quoteText targetLang : String) (hasCallback : Bool) (authorName : Option String)
    (now : Nat) (net : FetchBehavior) (parse : String → Option (Option String))
    (hpass : ¬(settings.enabled = false ∨ settings.apiKey = "" ∨ targetLang = "en"))
    (hmiss : cacheFind cache (cacheKeyFor quoteText targetLang authorName) = none)
    (hfail : net = .throwBefore ∨
      (∃ chunks throwDuring, net = .respond false chunks throwDuring) ∨
      (∃ chunks, net = .respond true chunks true)) :
    (translateQuoteStreaming settings cache quoteText targetLang hasCallback authorName
        now net parse).result = none ∧
    (translateQuoteStreaming settings cache quoteText targetLang hasCallback authorName
        now net parse).newCache = cache ∧
    (translateQuoteStreaming settings cache quoteText targetLang hasCallback authorName
        now net parse).requests = 1 ∧
    (translateQuoteStreaming settings cache quoteText targetLang hasCallback authorName
        now net parse).writeKey = none := by
  rcases hfail with rfl | ⟨chunks, throwDuring, rfl⟩ | ⟨chunks, rfl⟩
  · rw [translate_run_throwBefore settings cache quoteText targetLang hasCallback
      authorName now parse hpass hmiss]
    exact ⟨rfl, rfl, rfl, rfl⟩
  · rw [translate_run_notOk settings cache quoteText targetLang hasCallback
      authorName now parse chunks throwDuring hpass hmiss]
    exact ⟨rfl, rfl, rfl, rfl⟩
  · rw [translate_run_throwDuring settings cache quoteText targetLang hasCallback
      authorName now parse chunks hpass hmiss]
    exact ⟨rfl, rfl, rfl, rfl⟩

/-- Closed instance of `translate_network_failure` at an HTTP error
response on an empty cache. -/
theorem translate_network_failure_witness :
    (translateQuoteStreaming enabledSettings [] "Hello" "fr" true none 9
        (.respond false [] false) (fun _ => none)).result = none ∧
    (translateQuoteStreaming enabledSettings [] "Hello" "fr" true none 9
        (.respond false [] false) (fun _ => none)).newCache = [] ∧
    (translateQuoteStreaming enabledSettings [] "Hello" "fr" true none 9
        (.respond false [] false) (fun _ => none)).requests = 1 ∧
    (translateQuoteStreaming enabledSettings [] "Hello" "fr" true none 9
        (.respond false [] false) (fun _ => none)).writeKey = none :=
  translate_network_failure enabledSettings [] "Hello" "fr" true none 9
    (.respond false [] false) (fun _ => none) (by decide) (by decide)
    (Or.inr (Or.inl ⟨[], false, rfl⟩))

/-- C10.  An empty accumulated translation is returned as the empty string,
not `null`, and is never written to the cache: when the network path
completes with no parsed content deltas, the run's result is `some ""`, the
cache is unchanged and no write key is used. -/
theorem translate_empty_not_cached (settings : TranslationSettings) (cache : Cache)
    (quoteText targetLang : String) (hasCallback : Bool) (authorName : Option String)
    (now : Nat) (parse : String → Option (Option String)) (chunks : List String)
    (hpass : ¬(settings.enabled = false ∨ settings.apiKey = "" ∨ targetLang = "en"))
    (hmiss : cacheFind cache (cacheKeyFor quoteText targetLang authorName) = none)
    (hempty : (processStream hasCallback parse chunks).1 = "") :
    (translateQuoteStreaming settings cache quoteText targetLang hasCallback authorName
        now (.respond true chunks false) parse).result = some "" ∧
    (translateQuoteStreaming settings cache quoteText targetLang hasCallback authorName
        now (.respond true chunks false) parse).newCache = cache ∧
    (translateQuoteStreaming settings cache quoteText targetLang hasCallback authorName
        now (.respond true chunks false) parse).writeKey = none := by
  rw [translate_run_emptyAcc settings cache quoteText targetLang hasCallback authorName
    now parse chunks hpass hmiss hempty]
  exact ⟨rfl, rfl, rfl⟩

/-- Closed instance of `translate_empty_not_cached`: a stream whose only
event is the `[DONE]` sentinel accumulates nothing; the result is `some ""`
and the cache stays empty. -/
theorem translate_empty_not_cached_witness :
    (processStream true (fun _ => none) ["data: [DONE]\n"]).1 = "" ∧
    ((translateQuoteStreaming enabledSettings [] "Hello" "fr" true none 9
        (.respond true ["data: [DONE]\n"] false) (fun _ => none)).result = some "" ∧
      (translateQuoteStreaming enabledSettings [] "Hello" "fr" true none 9
        (.respond true ["data: [DONE]\n"] false) (fun _ => none)).newCache = [] ∧
      (translateQuoteStreaming enabledSettings [] "Hello" "fr" true none 9
        (.respond true ["data: [DONE]\n"] false) (fun _ => none)).writeKey = none) :=
  ⟨by decide,
   translate_empty_not_cached enabledSettings [] "Hello" "fr" true none 9 (fun _ => none)
     ["data: [DONE]\n"] (by decide) (by decide) (by decide)⟩

/-- The `code` field of a connectivity-test result: a JavaScript number
(HTTP status, or 200) or one of the string codes `NO_API_KEY`,
`INVALID_RESPONSE`, `NETWORK_ERROR`. -/
inductive ApiCode where
  | num (n : Nat)
  | str (s : String)
deriving DecidableEq

/-- The structured result object returned by `testTranslationAPI`. -/
structure TestResult where
  success : Bool
  message : String
  code : ApiCode
  details : Option String := none
deriving DecidableEq

/-- Network behaviour of the single non-streaming probe request issued by
`testTranslationAPI`: the fetch rejects with an error message; the
response is not OK (with status, status text, and the error body text —
`none` when reading it throws); the response is OK and its JSON carries a
`choices` array of the given length (`none` = no `choices` field); or the
response is OK but `response.json()` rejects. -/
inductive TestNet where
  | throwErr (msg : String)
  | errorResp (status : Nat) (statusText : String) (errText : Option String)
  | okResp (choices : Option Nat)
  | okJsonThrow (msg : String)
deriving DecidableEq

/-- Outcome of a `testTranslationAPI` run: the returned result object and
the number of `fetch` calls made. -/
structure TestTrace where
  result : TestResult
  requests : Nat
deriving DecidableEq

/-- `testTranslationAPI(customSettings)` of the quote-translation module:
fail fast with a structured `NO_API_KEY` error when no key is configured;
otherwise issue one minimal non-streaming request and classify the
outcome — success exactly when the response contains at least one
completion choice, an HTTP error with status code and body text otherwise,
`INVALID_RESPONSE` for an unexpected body, and `NETWORK_ERROR` when the
fetch (or reading the body JSON) throws. -/
def testTranslationAPI (settings : TranslationSettings) (net : TestNet) : TestTrace :=
  if settings.apiKey = "" then
    { result := { success := false, message := "API key is required",
                  code := .str "NO_API_KEY" },
      requests := 0 }
  else
    match net with
    | .throwErr msg =>
      { result := { success := false, message := "Connection failed: " ++ msg,
                    code := .str "NETWORK_ERROR" },
        requests := 1 }
    | .errorResp status statusText errText =>
      { result := { success := false,
                    message := "API Error: " ++ toString status ++ " - " ++ statusText,
                    code := .num status,
                    details := some (match errText with
                      | some t => t
                      | none => "Unable to read error response") },
        requests := 1 }
    | .okResp choices =>
      match choices with
      | some n =>
        if 0 < n then
          { result := { success := true, message := "API connection successful!",
                        code := .num 200 },
            requests := 1 }
        else
          { result := { success := false, message := "Unexpected API response format",
                        code := .str "INVALID_RESPONSE" },
            requests := 1 }
      | none =>
        { result := { success := false, message := "Unexpected API response format",
                      code := .str "INVALID_RESPONSE" },
          requests := 1 }
    | .okJsonThrow msg =>
      { result := { success := false, message := "Connection failed: " ++ msg,
                    code := .str "NETWORK_ERROR" },
        requests := 1 }

/-- C9.  Connectivity test: with an empty API key, `testTranslationAPI`
returns a structured failure (`success = false`, a message, and the code
`NO_API_KEY`) and issues no network request; with a key configured it
issues exactly one request, and the result is classified a success if and
only if the response body carries at least one completion choice. -/
theorem testTranslationAPI_spec (settings : TranslationSettings) (net : TestNet) :
    (settings.apiKey = "" →
      (testTranslationAPI settings net).requests = 0 ∧
      (testTranslationAPI settings net).result.success = false ∧
      (testTranslationAPI settings net).result.message = "API key is required" ∧
      (testTranslationAPI settings net).result.code = .str "NO_API_KEY") ∧
    (settings.apiKey ≠ "" →
      (testTranslationAPI settings net).requests = 1 ∧
      ((testTranslationAPI settings net).result.success = true ↔
        ∃ n, net = .okResp (some n) ∧ 0 < n)) := by
  constructor
  · intro h
    rw [testTranslationAPI.eq_def, if_pos h]
    exact ⟨rfl, rfl, rfl, rfl⟩
  · intro h
    rw [testTranslationAPI.eq_def, if_neg h]
    cases net with
    | throwErr msg => exact ⟨rfl, by simp⟩
    | errorResp status statusText errText => exact ⟨rfl, by simp⟩
    | okResp choices =>
      cases choices with
      | some n =>
        by_cases hn : 0 < n
        · dsimp only
          rw [if_pos hn]
          refine ⟨rfl, ?_⟩
          constructor
          · intro _
            exact ⟨n, rfl, hn⟩
          · intro _
            rfl
        · dsimp only
          rw [if_neg hn]
          refine ⟨rfl, ?_⟩
          constructor
          · intro hfalse
            exact absurd hfalse (by simp)
          · rintro ⟨m, hm, hmpos⟩
            injection hm with h1
            exact absurd (Option.some.inj h1 ▸ hmpos) hn
      | none =>
        refine ⟨rfl, ?_⟩
        constructor
        · intro hfalse
          exact absurd hfalse (by simp)
        · rintro ⟨m, hm, _⟩
          injection hm with h1
          exact Option.noConfusion h1
    | okJsonThrow msg => exact ⟨rfl, by simp⟩

/-- Closed instance of `testTranslationAPI_spec`: an empty key never hits
the network and reports `NO_API_KEY`; a configured key with a one-choice
response is classified as success after exactly one request. -/
theorem testTranslationAPI_spec_witness :
    (((⟨true, "u", "", "m", 0, "", false⟩ : TranslationSettings).apiKey = "") ∧
      (testTranslationAPI ⟨true, "u", "", "m", 0, "", false⟩ (.okResp (some 1))).requests = 0 ∧
      (testTranslationAPI ⟨true, "u", "", "m", 0, "", false⟩
        (.okResp (some 1))).result.success = false ∧
      (testTranslationAPI ⟨true, "u", "", "m", 0, "", false⟩
        (.okResp (some 1))).result.message = "API key is required" ∧
      (testTranslationAPI ⟨true, "u", "", "m", 0, "", false⟩
        (.okResp (some 1))).result.code = .str "NO_API_KEY") ∧
    (enabledSettings.apiKey ≠ "" ∧
      (testTranslationAPI enabledSettings (.okResp (some 1))).requests = 1 ∧
      ((testTranslationAPI enabledSettings (.okResp (some 1))).result.success = true ↔
        ∃ n, (TestNet.okResp (some 1) : TestNet) = .okResp (some n) ∧ 0 < n)) :=
  ⟨⟨rfl, (testTranslationAPI_spec ⟨true, "u", "", "m", 0, "", false⟩ (.okResp (some 1))).1 rfl⟩,
   ⟨by decide, (testTranslationAPI_spec enabledSettings (.okResp (some 1))).2 (by decide)⟩⟩

/-- `fullTranslation.indexOf('|')` together with the two substrings around
the first bar: `none` when no bar occurs (index `-1`), otherwise the text
before the first `'|'` and everything after it. -/
def breakAtBar : List Char → Option (List Char × List Char)
  | [] => none
  | c :: cs =>
    if c = '|' then some ([], cs)
    else
      match breakAtBar cs with
      | none => none
      | some (q, a) => some (c :: q, a)

/-- The two on-screen text regions written by the author-aware
`displayQuoteTranslation`, together with its accumulated buffer. -/
structure DisplayState where
  fullTranslation : String
  quoteRegion : String
  authorRegion : String
deriving DecidableEq

/-- One invocation of the `onChunk` closure of the author-aware
`displayQuoteTranslation` (the variant that splits quote and author):
a falsy (empty) chunk changes nothing; otherwise the chunk is appended to
`fullTranslation` and the regions are re-rendered — everything as quote
text while no `'|'` has been observed; once the accumulated buffer contains
a bar, the trimmed text before the first bar goes to the quote region and
the trimmed text after it to the author region.  (The `isComplete` branch
only animates the author wrapper width and touches no text.) -/
def displayQuoteTranslationStep (st : DisplayState) (chunk : String) : DisplayState :=
  if chunk = "" then st
  else
    match breakAtBar (st.fullTranslation ++ chunk).data with
    | none =>
      { fullTranslation := st.fullTranslation ++ chunk,
        quoteRegion := st.fullTranslation ++ chunk,
        authorRegion := st.authorRegion }
    | some (q, a) =>
      { fullTranslation := st.fullTranslation ++ chunk,
        quoteRegion := String.mk (jsTrim q),
        authorRegion := String.mk (jsTrim a) }

/-- A whole streamed delivery to the display adapter: the chunks are folded
over the initial state in which `displayQuoteTranslation` has cleared both
text regions and the buffer. -/
def displayQuoteTranslationRun (chunks : List String) : DisplayState :=
  chunks.foldl displayQuoteTranslationStep ⟨"", "", ""⟩

theorem strAppend_empty : ∀ s : String, s ++ "" = s
  | ⟨d⟩ => congrArg String.mk (List.append_nil d)

theorem concatAll_eq_empty : ∀ chunks : List String,
    concatAll chunks = "" → ∀ c ∈ chunks, c = ""
  | [], _, c, hc => absurd hc (List.not_mem_nil c)
  | s :: rest, h, c, hc => by
    have h' : s ++ concatAll rest = "" := h
    rcases strAppend_eq_empty h' with ⟨hs, hrest⟩
    rcases List.mem_cons.mp hc with rfl | hc
    · exact hs
    · exact concatAll_eq_empty rest hrest c hc

theorem displayStep_empty (st : DisplayState) : displayQuoteTranslationStep st "" = st := by
  rw [displayQuoteTranslationStep, if_pos rfl]

theorem displayFold_all_empty : ∀ (chunks : List String) (st : DisplayState),
    (∀ c ∈ chunks, c = "") → chunks.foldl displayQuoteTranslationStep st = st
  | [], _, _ => rfl
  | c :: rest, st, h => by
    have hc : c = "" := h c (List.mem_cons_self _ _)
    subst hc
    rw [List.foldl_cons, displayStep_empty]
    exact displayFold_all_empty rest st (fun c hc => h c (List.mem_cons_of_mem _ hc))

theorem displayStep_full (st : DisplayState) (c : String) (hc : c ≠ "") :
    (displayQuoteTranslationStep st c).fullTranslation = st.fullTranslation ++ c := by
  rw [displayQuoteTranslationStep, if_neg hc]
  split
  · rfl
  · rfl

theorem displayFold_split : ∀ (chunks : List String) (st : DisplayState) (q a : List Char),
    concatAll chunks ≠ "" →
    breakAtBar (st.fullTranslation ++ concatAll chunks).data = some (q, a) →
    (chunks.foldl displayQuoteTranslationStep st).quoteRegion = String.mk (jsTrim q) ∧
    (chunks.foldl displayQuoteTranslationStep st).authorRegion = String.mk (jsTrim a)
  | [], _, _, _, hne, _ => absurd rfl hne
  | c :: rest, st, q, a, hne, hbar => by
    have hcons : concatAll (c :: rest) = c ++ concatAll rest := rfl
    by_cases hc : c = ""
    · subst hc
      have hconcat : concatAll ("" :: rest) = concatAll rest := empty_strAppend _
      rw [List.foldl_cons, displayStep_empty]
      refine displayFold_split rest st q a ?_ ?_
      · rw [← hconcat]
        exact hne
      · rw [← hconcat]
        exact hbar
    · rw [List.foldl_cons]
      by_cases hrest : concatAll rest = ""
      · have hall : ∀ x ∈ rest, x = "" := concatAll_eq_empty rest hrest
        rw [displayFold_all_empty rest _ hall]
        have htot : st.fullTranslation ++ concatAll (c :: rest) = st.fullTranslation ++ c := by
          rw [hcons, hrest, strAppend_empty]
        rw [htot] at hbar
        rw [displayQuoteTranslationStep, if_neg hc, hbar]
        exact ⟨rfl, rfl⟩
      · refine displayFold_split rest (displayQuoteTranslationStep st c) q a hrest ?_
        rw [displayStep_full st c hc, strAppend_assoc, ← hcons]
        exact hbar

/-- C5.  Author-aware display splitting: however an accumulated buffer equal
to `"Bonjour|Voltaire"` is cut into chunks, after the whole buffer has
streamed through the author-aware `displayQuoteTranslation` callback the
quote region shows exactly `"Bonjour"` and the author region exactly
`"Voltaire"`. -/
theorem display_split_spec (chunks : List String)
    (h : concatAll chunks = "Bonjour|Voltaire") :
    (displayQuoteTranslationRun chunks).quoteRegion = "Bonjour" ∧
    (displayQuoteTranslationRun chunks).authorRegion = "Voltaire" := by
  have hne : concatAll chunks ≠ "" := by
    rw [h]
    decide
  have hbar : breakAtBar ((⟨"", "", ""⟩ : DisplayState).fullTranslation ++
      concatAll chunks).data = some ("Bonjour".data, "Voltaire".data) := by
    show breakAtBar ("" ++ concatAll chunks).data = _
    rw [empty_strAppend, h]
    decide
  rcases displayFold_split chunks ⟨"", "", ""⟩ "Bonjour".data "Voltaire".data hne hbar
    with ⟨h1, h2⟩
  constructor
  · rw [displayQuoteTranslationRun, h1]
    decide
  · rw [displayQuoteTranslationRun, h2]
    decide

/-- Closed instance of `display_split_spec`: the buffer delivered as the
three chunks `"Bon"`, `"jour|Vol"`, `"taire"`, with the bar arriving in the
middle of a chunk. -/
theorem display_split_spec_witness :
    concatAll ["Bon", "jour|Vol", "taire"] = "Bonjour|Voltaire" ∧
    (displayQuoteTranslationRun ["Bon", "jour|Vol", "taire"]).quoteRegion = "Bonjour" ∧
    (displayQuoteTranslationRun ["Bon", "jour|Vol", "taire"]).authorRegion = "Voltaire" :=
  ⟨by decide, display_split_spec ["Bon", "jour|Vol", "taire"] (by decide)⟩

/-- Specification-side measurement for C8: the content deltas of the
parseable event payloads of a chunk's lines, in arrival order — every
nonempty line carrying the `data: ` marker whose payload is not the
`[DONE]` sentinel and parses to a truthy content delta contributes that
delta.  (Unlike the implementation loop, this reading does not stop at a
`[DONE]` line.) -/
def lineDeltas (parse : String → Option (Option String)) : List (List Char) → List String
  | [] => []
  | line :: rest =>
    if line.take 6 = "data: ".data then
      if line.drop 6 = "[DONE]".data then lineDeltas parse rest
      else
        match parse (String.mk (line.drop 6)) with
        | some (some content) =>
          if content = "" then lineDeltas parse rest
          else content :: lineDeltas parse rest
        | _ => lineDeltas parse rest
    else lineDeltas parse rest

/-- Specification-side measurement for C8 over the whole stream: the
parseable content deltas of all read chunks, in arrival order. -/
def parseableDeltas (parse : String → Option (Option String)) : List String → List String
  | [] => []
  | chunk :: rest => lineDeltas parse (chunkLines chunk) ++ parseableDeltas parse rest

/-- Within one read chunk, no parseable content delta follows a `[DONE]`
sentinel line (such lines are unreachable for the implementation because of
the `break`). -/
def noDeltaAfterDone (parse : String → Option (Option String)) : List (List Char) → Bool
  | [] => true
  | line :: rest =>
    if line.take 6 = "data: ".data ∧ line.drop 6 = "[DONE]".data then
      (lineDeltas parse rest).isEmpty
    else noDeltaAfterDone parse rest

theorem processChunk_deltas (parse : String → Option (Option String)) :
    ∀ lines : List (List Char),
    noDeltaAfterDone parse lines = true →
    (processChunkLines true parse lines).1 = concatAll (lineDeltas parse lines) ∧
    ((processChunkLines true parse lines).2.filter (fun call => !call.2)).map Prod.fst =
      lineDeltas parse lines
  | [], _ => ⟨rfl, rfl⟩
  | line :: rest, h => by
    by_cases hdata : line.take 6 = "data: ".data
    · by_cases hdone : line.drop 6 = "[DONE]".data
      · rw [noDeltaAfterDone, if_pos ⟨hdata, hdone⟩] at h
        have hrest : lineDeltas parse rest = [] := by
          cases hd : lineDeltas parse rest with
          | nil => rfl
          | cons a l =>
            rw [hd] at h
            exact absurd h (by simp [List.isEmpty])
        rw [processChunkLines, if_pos hdata, if_pos hdone]
        rw [lineDeltas, if_pos hdata, if_pos hdone, hrest]
        exact ⟨rfl, rfl⟩
      · have h' : noDeltaAfterDone parse rest = true := by
          rwa [noDeltaAfterDone, if_neg (fun hand => hdone hand.2)] at h
        rcases processChunk_deltas parse rest h' with ⟨ih1, ih2⟩
        rw [processChunkLines, if_pos hdata, if_neg hdone]
        rw [lineDeltas, if_pos hdata, if_neg hdone]
        cases hp : parse (String.mk (line.drop 6)) with
        | none => exact ⟨ih1, ih2⟩
        | some content =>
          cases content with
          | none => exact ⟨ih1, ih2⟩
          | some c =>
            dsimp only
            by_cases hc : c = ""
            · rw [if_pos hc, if_pos hc]
              exact ⟨ih1, ih2⟩
            · rw [if_neg hc, if_neg hc]
              constructor
              · show c ++ (processChunkLines true parse rest).1 =
                  concatAll (c :: lineDeltas parse rest)
                rw [ih1]
                rfl
              · show (((c, false) :: (processChunkLines true parse rest).2).filter
                  (fun call => !call.2)).map Prod.fst = c :: lineDeltas parse rest
                rw [List.filter_cons_of_pos (by rfl), List.map_cons, ih2]
    · have h' : noDeltaAfterDone parse rest = true := by
        rwa [noDeltaAfterDone, if_neg (fun hand => hdata hand.1)] at h
      rcases processChunk_deltas parse rest h' with ⟨ih1, ih2⟩
      rw [processChunkLines, if_neg hdata]
      rw [lineDeltas, if_neg hdata]
      exact ⟨ih1, ih2⟩

theorem processStream_deltas (parse : String → Option (Option String)) :
    ∀ chunks : List String,
    (∀ ch ∈ chunks, noDeltaAfterDone parse (chunkLines ch) = true) →
    (processStream true parse chunks).1 = concatAll (parseableDeltas parse chunks) ∧
    ((processStream true parse chunks).2.filter (fun call => !call.2)).map Prod.fst =
      parseableDeltas parse chunks
  | [], _ => ⟨rfl, rfl⟩
  | ch :: rest, h => by
    rcases processChunk_deltas parse (chunkLines ch) (h ch (List.mem_cons_self _ _))
      with ⟨hc1, hc2⟩
    rcases processStream_deltas parse rest (fun c hc => h c (List.mem_cons_of_mem _ hc))
      with ⟨hs1, hs2⟩
    constructor
    · show (processChunkLines true parse (chunkLines ch)).1 ++
        (processStream true parse rest).1 = _
      rw [hc1, hs1, ← concatAll_append]
      rfl
    · show (((processChunkLines true parse (chunkLines ch)).2 ++
        (processStream true parse rest).2).filter (fun call => !call.2)).map Prod.fst = _
      rw [List.filter_append, List.map_append, hc2, hs2]
      rfl

/-- C8, amended.  Malformed event payloads are skipped without aborting the
stream: on a completed network path, provided that within each read chunk
no parseable content-delta line follows a `[DONE]` sentinel line (the
implementation's `break` skips the remainder of such a chunk), the
accumulated translation returned is exactly the concatenation of the
content deltas of the parseable event payloads, in arrival order, and the
non-final `onChunk` calls forward exactly those deltas in order. -/
theorem translate_stream_deltas (settings : TranslationSettings) (cache : Cache)
    (quoteText targetLang : String) (authorName : Option String) (now : Nat)
    (parse : String → Option (Option String)) (chunks : List String)
    (hpass : ¬(settings.enabled = false ∨ settings.apiKey = "" ∨ targetLang = "en"))
    (hmiss : cacheFind cache (cacheKeyFor quoteText targetLang authorName) = none)
    (hclean : ∀ ch ∈ chunks, noDeltaAfterDone parse (chunkLines ch) = true) :
    (translateQuoteStreaming settings cache quoteText targetLang true authorName now
        (.respond true chunks false) parse).result =
      some (concatAll (parseableDeltas parse chunks)) ∧
    ((translateQuoteStreaming settings cache quoteText targetLang true authorName now
        (.respond true chunks false) parse).chunkCalls.filter
          (fun call => !call.2)).map Prod.fst = parseableDeltas parse chunks := by
  rcases processStream_deltas parse chunks hclean with ⟨h1, h2⟩
  by_cases hempty : (processStream true parse chunks).1 = ""
  · rw [translate_run_emptyAcc settings cache quoteText targetLang true authorName now
      parse chunks hpass hmiss hempty]
    constructor
    · show some "" = _
      rw [← hempty, h1]
    · exact h2
  · rw [translate_run_success settings cache quoteText targetLang true authorName now
      parse chunks hpass hmiss hempty]
    constructor
    · show some (processStream true parse chunks).1 = _
      rw [h1]
    · exact h2

/-- Closed instance of `translate_stream_deltas`: a stream with one good
payload, one malformed payload (skipped silently), and a terminal `[DONE]`
accumulates exactly the one delta `"Hi"` and forwards it. -/
theorem translate_stream_deltas_witness :
    ¬(enabledSettings.enabled = false ∨ enabledSettings.apiKey = "" ∨ "fr" = "en") ∧
    cacheFind [] (cacheKeyFor "Hello" "fr" none) = none ∧
    (∀ ch ∈ ["data: a\ndata: bad\ndata: [DONE]"],
      noDeltaAfterDone (fun s => if s = "a" then some (some "Hi") else none)
        (chunkLines ch) = true) ∧
    ((translateQuoteStreaming enabledSettings [] "Hello" "fr" true none 9
        (.respond true ["data: a\ndata: bad\ndata: [DONE]"] false)
        (fun s => if s = "a" then some (some "Hi") else none)).result =
      some (concatAll (parseableDeltas
        (fun s => if s = "a" then some (some "Hi") else none)
        ["data: a\ndata: bad\ndata: [DONE]"])) ∧
      ((translateQuoteStreaming enabledSettings [] "Hello" "fr" true none 9
        (.respond true ["data: a\ndata: bad\ndata: [DONE]"] false)
        (fun s => if s = "a" then some (some "Hi") else none)).chunkCalls.filter
          (fun call => !call.2)).map Prod.fst =
        parseableDeltas (fun s => if s = "a" then some (some "Hi") else none)
          ["data: a\ndata: bad\ndata: [DONE]"]) :=
  ⟨by decide, by decide, by decide,
   translate_stream_deltas enabledSettings [] "Hello" "fr" none 9
     (fun s => if s = "a" then some (some "Hi") else none)
     ["data: a\ndata: bad\ndata: [DONE]"] (by decide) (by decide) (by decide)⟩

/-- C8 counterexample to the unamended claim: when a parseable payload line
follows the `[DONE]` sentinel within the same read chunk, the `break`
discards it, so the accumulated translation (empty here) differs from the
concatenation of the content deltas of all parseable event payloads
(`"X"`). -/
theorem translate_stream_deltas_counterexample :
    parseableDeltas (fun s => if s = "p" then some (some "X") else none)
      ["data: [DONE]\ndata: p"] = ["X"] ∧
    concatAll (parseableDeltas (fun s => if s = "p" then some (some "X") else none)
      ["data: [DONE]\ndata: p"]) = "X" ∧
    (translateQuoteStreaming enabledSettings [] "Hello" "fr" true none 9
        (.respond true ["data: [DONE]\ndata: p"] false)
        (fun s => if s = "p" then some (some "X") else none)).result = some "" := by
  refine ⟨by decide, by decide, by decide⟩

theorem mem_take_of_few_newer (c' : Cache) (x : String × CacheEntry)
    (hx : x ∈ c')
    (hcount : c'.countP (fun y => decide (x.2.timestamp ≤ y.2.timestamp)) ≤ 100) :
    x ∈ (List.insertionSort tsGe c').take 100 := by
  by_contra hnot
  have hperm : (List.insertionSort tsGe c').Perm c' := List.perm_insertionSort tsGe c'
  have hxs : x ∈ List.insertionSort tsGe c' := hperm.mem_iff.mpr hx
  have hsplit : (List.insertionSort tsGe c').take 100 ++ (List.insertionSort tsGe c').drop 100 =
      List.insertionSort tsGe c' := List.take_append_drop 100 _
  have hxdrop : x ∈ (List.insertionSort tsGe c').drop 100 := by
    rcases List.mem_append.mp (by rw [hsplit]; exact hxs) with h | h
    · exact absurd h hnot
    · exact h
  have hlen : 100 ≤ (List.insertionSort tsGe c').length := by
    by_contra hlt
    push_neg at hlt
    have hnil : (List.insertionSort tsGe c').drop 100 = [] :=
      List.drop_eq_nil_of_le (by omega)
    rw [hnil] at hxdrop
    exact absurd hxdrop (List.not_mem_nil x)
  have hsorted := List.sorted_insertionSort tsGe c'
  have htake : ∀ y ∈ (List.insertionSort tsGe c').take 100,
      x.2.timestamp ≤ y.2.timestamp := fun y hy =>
    hsorted.rel_of_mem_take_of_mem_drop hy hxdrop
  have hcount_take : ((List.insertionSort tsGe c').take 100).countP
      (fun y => decide (x.2.timestamp ≤ y.2.timestamp)) = 100 := by
    rw [List.countP_eq_length.mpr (fun a ha => decide_eq_true (htake a ha))]
    rw [List.length_take]
    omega
  have hdrop_pos : 0 < ((List.insertionSort tsGe c').drop 100).countP
      (fun y => decide (x.2.timestamp ≤ y.2.timestamp)) :=
    List.countP_pos_iff.mpr ⟨x, hxdrop, decide_eq_true (Nat.le_refl _)⟩
  have htotal : (List.insertionSort tsGe c').countP
      (fun y => decide (x.2.timestamp ≤ y.2.timestamp)) =
      c'.countP (fun y => decide (x.2.timestamp ≤ y.2.timestamp)) :=
    hperm.countP_eq _
  have hge : 101 ≤ (List.insertionSort tsGe c').countP
      (fun y => decide (x.2.timestamp ≤ y.2.timestamp)) := by
    rw [← hsplit, List.countP_append]
    omega
  rw [htotal] at hge
  omega

theorem cacheFind_of_unique : ∀ (l : Cache) (k : String) (e : CacheEntry),
    (k, e) ∈ l → (∀ y ∈ l, y.1 = k → y = (k, e)) → cacheFind l k = some e
  | [], _, _, hmem, _ => absurd hmem (List.not_mem_nil _)
  | (k', e') :: rest, k, e, hmem, huniq => by
    by_cases hk : k' = k
    · subst hk
      have heq : (k', e') = (k', e) := huniq (k', e') (List.mem_cons_self _ _) rfl
      rw [cacheFind, if_pos rfl]
      injection heq with _ h2
      rw [h2]
    · rw [cacheFind, if_neg hk]
      refine cacheFind_of_unique rest k e ?_
        (fun y hy hk1 => huniq y (List.mem_cons_of_mem _ hy) hk1)
      rcases List.mem_cons.mp hmem with heq | h
      · exact absurd (congrArg Prod.fst heq.symm) hk
      · exact h

/-- After a fresh-key put whose new entry's timestamp is at least as recent
as all but at most 99 pre-existing entries, the entry is found again under
its key — it survives the eviction. -/
theorem cachePut_find_fresh (cache : Cache) (k : String) (e : CacheEntry)
    (hmiss : cacheFind cache k = none)
    (hcount : cache.countP (fun y => decide (e.timestamp ≤ y.2.timestamp)) ≤ 99) :
    cacheFind (cachePut cache k e) k = some e := by
  have hset : setEntry cache k e = cache ++ [(k, e)] := mem_setEntry_fresh cache k e hmiss
  have hfreshkeys : ∀ y ∈ cache, y.1 ≠ k := (cacheFind_eq_none cache k).mp hmiss
  have huniq : ∀ y ∈ setEntry cache k e, y.1 = k → y = (k, e) := by
    rw [hset]
    intro y hy hk1
    rcases List.mem_append.mp hy with h | h
    · exact absurd hk1 (hfreshkeys y h)
    · exact List.mem_singleton.mp h
  have hmem : (k, e) ∈ setEntry cache k e := by
    rw [hset]
    exact List.mem_append_right _ (List.mem_singleton_self _)
  rw [cachePut]
  split
  · have hcount' : (setEntry cache k e).countP
        (fun y => decide (e.timestamp ≤ y.2.timestamp)) ≤ 100 := by
      rw [hset, List.countP_append]
      have hone : ([((k, e) : String × CacheEntry)]).countP
          (fun y => decide (e.timestamp ≤ y.2.timestamp)) ≤ 1 := by
        rw [List.countP_cons]
        simp [List.countP_nil]
      omega
    have hmem' : (k, e) ∈ (List.insertionSort tsGe (setEntry cache k e)).take 100 :=
      mem_take_of_few_newer (setEntry cache k e) (k, e) hmem hcount'
    refine cacheFind_of_unique _ k e hmem' ?_
    intro y hy hk1
    have hysort : y ∈ List.insertionSort tsGe (setEntry cache k e) :=
      List.take_subset 100 _ hy
    exact huniq y ((List.perm_insertionSort tsGe _).mem_iff.mp hysort) hk1
  · exact cacheFind_of_unique _ k e hmem huniq

/-- C4, amended.  Round-trip through the cache: after a call that returned
a non-empty translation, an immediately following call with the same text,
language and author finds the entry in the cache, issues no network
request, and returns the same translation — provided that at most 99
pre-insertion entries carry a timestamp at least the write time of the new
entry.  (Without that proviso the freshly written entry can itself be the
one evicted, because the stable descending sort places it after all ties;
see the counterexample.) -/
theorem translate_roundtrip_amended (settings : TranslationSettings) (cache : Cache)
    (quoteText targetLang : String) (hasCallback hasCallback2 : Bool)
    (authorName : Option String) (now now2 : Nat) (net net2 : FetchBehavior)
    (parse parse2 : String → Option (Option String)) (s : String)
    (hfresh : cache.countP (fun y => decide (now ≤ y.2.timestamp)) ≤ 99)
    (h1 : (translateQuoteStreaming settings cache quoteText targetLang hasCallback
        authorName now net parse).result = some s)
    (h2 : s ≠ "") :
    (translateQuoteStreaming settings
        (translateQuoteStreaming settings cache quoteText targetLang hasCallback
          authorName now net parse).newCache
        quoteText targetLang hasCallback2 authorName now2 net2 parse2).requests = 0 ∧
    (translateQuoteStreaming settings
        (translateQuoteStreaming settings cache quoteText targetLang hasCallback
          authorName now net parse).newCache
        quoteText targetLang hasCallback2 authorName now2 net2 parse2).result = some s := by
  by_cases hpass : settings.enabled = false ∨ settings.apiKey = "" ∨ targetLang = "en"
  · rw [translateQuoteStreaming.eq_def, if_pos hpass] at h1
    exact absurd h1 (by simp)
  · cases hfind : cacheFind cache (cacheKeyFor quoteText targetLang authorName) with
    | some entry =>
      rw [translate_run_hit settings cache quoteText targetLang hasCallback authorName
        now parse net entry hpass hfind] at h1 ⊢
      rw [translate_run_hit settings cache quoteText targetLang hasCallback2 authorName
        now2 parse2 net2 entry hpass hfind]
      exact ⟨rfl, h1⟩
    | none =>
      cases net with
      | throwBefore =>
        rw [translate_run_throwBefore settings cache quoteText targetLang hasCallback
          authorName now parse hpass hfind] at h1
        exact absurd h1 (by simp)
      | respond ok chunks throwDuring =>
        cases ok with
        | false =>
          rw [translate_run_notOk settings cache quoteText targetLang hasCallback
            authorName now parse chunks throwDuring hpass hfind] at h1
          exact absurd h1 (by simp)
        | true =>
          cases throwDuring with
          | true =>
            rw [translate_run_throwDuring settings cache quoteText targetLang hasCallback
              authorName now parse chunks hpass hfind] at h1
            exact absurd h1 (by simp)
          | false =>
            by_cases hempty : (processStream hasCallback parse chunks).1 = ""
            · rw [translate_run_emptyAcc settings cache quoteText targetLang hasCallback
                authorName now parse chunks hpass hfind hempty] at h1
              have : s = "" := (Option.some.inj h1).symm
              exact absurd this h2
            · rw [translate_run_success settings cache quoteText targetLang hasCallback
                authorName now parse chunks hpass hfind hempty] at h1 ⊢
              have hs : (processStream hasCallback parse chunks).1 = s := Option.some.inj h1
              have hfind2 : cacheFind
                  (cachePut cache (cacheKeyFor quoteText targetLang authorName)
                    { translation := (processStream hasCallback parse chunks).1,
                      timestamp := now })
                  (cacheKeyFor quoteText targetLang authorName) =
                  some { translation := (processStream hasCallback parse chunks).1,
                         timestamp := now } :=
                cachePut_find_fresh cache (cacheKeyFor quoteText targetLang authorName)
                  { translation := (processStream hasCallback parse chunks).1,
                    timestamp := now } hfind hfresh
              rw [translate_run_hit settings _ quoteText targetLang hasCallback2 authorName
                now2 parse2 net2 _ hpass hfind2]
              refine ⟨rfl, ?_⟩
              show some (processStream hasCallback parse chunks).1 = some s
              rw [hs]

/-- Closed instance of `translate_roundtrip_amended`: a translation of
`"T"` to `"fr"` into an empty cache, immediately re-requested — the second
call makes no request and returns the cached `"Bonjour"`. -/
theorem translate_roundtrip_amended_witness :
    (([] : Cache).countP (fun y => decide (5 ≤ y.2.timestamp)) ≤ 99 ∧
      (translateQuoteStreaming enabledSettings [] "T" "fr" true none 5
        (.respond true ["data: j"] false)
        (fun s => if s = "j" then some (some "Bonjour") else none)).result =
          some "Bonjour" ∧
      ("Bonjour" : String) ≠ "") ∧
    (translateQuoteStreaming enabledSettings
        (translateQuoteStreaming enabledSettings [] "T" "fr" true none 5
          (.respond true ["data: j"] false)
          (fun s => if s = "j" then some (some "Bonjour") else none)).newCache
        "T" "fr" true none 9 .throwBefore (fun _ => none)).requests = 0 ∧
    (translateQuoteStreaming enabledSettings
        (translateQuoteStreaming enabledSettings [] "T" "fr" true none 5
          (.respond true ["data: j"] false)
          (fun s => if s = "j" then some (some "Bonjour") else none)).newCache
        "T" "fr" true none 9 .throwBefore (fun _ => none)).result = some "Bonjour" :=
  ⟨⟨by decide, by decide, by decide⟩,
   translate_roundtrip_amended enabledSettings [] "T" "fr" true true none 5 9
     (.respond true ["data: j"] false) .throwBefore
     (fun s => if s = "j" then some (some "Bonjour") else none) (fun _ => none)
     "Bonjour" (by decide) (by decide) (by decide)⟩

/-- A full cache whose 100 entries all carry timestamp 5: one hundred
distinct single-character keys. -/
def staleCache : Cache :=
  (List.range 100).map (fun i => (String.mk [Char.ofNat (65 + i)], ⟨"x", 5⟩))

/-- C4 counterexample to the unamended claim: with 100 pre-existing entries
whose timestamps equal the write time, the successful first call's entry is
evicted immediately (the stable descending sort leaves the appended entry
last among the ties, and `slice(0, 100)` drops it), so the immediately
following call for the same text and language misses the cache and issues a
second network request. -/
theorem translate_roundtrip_counterexample :
    (translateQuoteStreaming enabledSettings staleCache "T" "fr" false none 5
        (.respond true ["data: j"] false)
        (fun s => if s = "j" then some (some "Bonjour") else none)).result =
      some "Bonjour" ∧
    cacheFind (translateQuoteStreaming enabledSettings staleCache "T" "fr" false none 5
        (.respond true ["data: j"] false)
        (fun s => if s = "j" then some (some "Bonjour") else none)).newCache "T|fr" =
      none ∧
    (translateQuoteStreaming enabledSettings
        (translateQuoteStreaming enabledSettings staleCache "T" "fr" false none 5
          (.respond true ["data: j"] false)
          (fun s => if s = "j" then some (some "Bonjour") else none)).newCache
        "T" "fr" false none 6 (.respond true [] false) (fun _ => none)).requests = 1 := by
  refine ⟨by decide, by decide, by decide⟩

end QuoteTranslation
